import Mathlib

/-!
Verification of the adaptive review-harvesting engine in `backend/app.py`.

Text is modelled as `List Char` (abbreviated `JStr`), so that every
definition is executable and every concrete property is decidable by the
kernel. The browser DOM, the Playwright driver and the external
selector-suggestion service are collaborators: the values they hand to the
engine (element texts, attribute values, click outcomes, navigation
successes) appear as explicit inputs of the corresponding definitions,
while everything the engine itself computes is translated directly from
the source.
-/

namespace Gomarble

/-- JavaScript/Python strings, modelled as lists of characters. -/
abbrev JStr := List Char

/-! ## Text normalizer (`cleanText`, app.py lines 364-388) -/

/-- Characters matched by the JavaScript regex class `\s` (for the ASCII
range relevant here: space, tab, newline, carriage return, vertical tab,
form feed). -/
def isSpaceJS (c : Char) : Bool :=
  c = ' ' || c = '\t' || c = '\n' || c = '\r' || c = '\x0b' || c = '\x0c'

/-- A helper bound: dropping a prefix never lengthens a list. -/
theorem dropWhile_len_le (p : Char → Bool) (l : JStr) :
    (l.dropWhile p).length ≤ l.length := by
  induction l with
  | nil => simp [List.dropWhile]
  | cons c rest ih =>
    by_cases h : p c
    · simp only [List.dropWhile_cons_of_pos h, List.length_cons]; omega
    · simp [List.dropWhile_cons_of_neg h]

/-- Worker for `collapseRuns`: the flag records whether the previous
character belonged to a whitespace run already rendered as a space. -/
def collapseAux : Bool → JStr → JStr
  | _, [] => []
  | inRun, c :: rest =>
    if isSpaceJS c then
      if inRun then collapseAux true rest else ' ' :: collapseAux true rest
    else c :: collapseAux false rest

/-- `text.replace(/\s+/g, ' ')`: every maximal run of whitespace becomes a
single space. -/
def collapseRuns (l : JStr) : JStr := collapseAux false l

/-- `text.replace(/\r?\n/g, ' ')`: a newline, optionally preceded by a
carriage return, becomes a space (a lone carriage return is untouched).
After `collapseRuns` this is the identity, but it is part of the source
pipeline and is translated as written. -/
def replaceNl : JStr → JStr
  | '\r' :: '\n' :: rest => ' ' :: replaceNl rest
  | '\n' :: rest => ' ' :: replaceNl rest
  | c :: rest => c :: replaceNl rest
  | [] => []

/-- JavaScript `String.prototype.trim`: strip whitespace at both ends. -/
def trimChars (l : JStr) : JStr :=
  ((l.dropWhile isSpaceJS).reverse.dropWhile isSpaceJS).reverse

/-- Case-insensitive prefix test (the `/i` flag): does `l` start with
pattern `pat`, comparing lowercased characters? -/
def startsWithCI : JStr → JStr → Bool
  | [], _ => true
  | _ :: _, [] => false
  | p :: ps, c :: cs => p.toLower = c.toLower && startsWithCI ps cs

/-- Does one of the truncation markers `read more` / `show more` /
`see more` occur (case-insensitively) at the head of `l`? -/
def isMarkerAt (l : JStr) : Bool :=
  startsWithCI "read more".toList l || startsWithCI "show more".toList l ||
    startsWithCI "see more".toList l

/-- `text.split(/(?:read more|show more|see more)/i)[0]`: the prefix of the
text before the first case-insensitive truncation marker. -/
def cutAtMarker : JStr → JStr
  | [] => []
  | c :: rest => if isMarkerAt (c :: rest) then [] else c :: cutAtMarker rest

/-- JavaScript `text.split(' ')`: split at every single space character,
keeping empty fragments (so `''.split(' ')` is `['']` and a trailing space
yields a trailing empty word). -/
def splitOnSpace : JStr → List JStr
  | [] => [[]]
  | ' ' :: rest => [] :: splitOnSpace rest
  | c :: rest =>
    match splitOnSpace rest with
    | w :: ws => (c :: w) :: ws
    | [] => [[c]]

/-- JavaScript `Array.prototype.join(' ')`. -/
def joinSpace : List JStr → JStr
  | [] => []
  | [w] => w
  | w :: rest => w ++ ' ' :: joinSpace rest

/-- The word-scanning loop of `cleanText`: for each position the 3-word
lookahead phrase is formed; if that phrase already occurs in the text
built so far and has more than two space-separated parts, the current word
is skipped, otherwise it is appended (with a separating space when the
accumulator is non-empty). The source also tracks a `lastPhrase` variable,
which is never read and is omitted. -/
def dedupGo : List JStr → JStr → JStr
  | [], acc => acc
  | w :: rest, acc =>
    let phrase := joinSpace ((w :: rest).take 3)
    if phrase <:+: acc ∧ 2 < (splitOnSpace phrase).length then
      dedupGo rest acc
    else
      dedupGo rest (if acc.isEmpty then w else acc ++ ' ' :: w)

/-- `cleanText` from the traditional extraction script: collapse
whitespace, trim, cut at the first truncation marker, run the 3-gram
duplicate-phrase scan, and trim the result. -/
def cleanText (t : JStr) : JStr :=
  let t1 := trimChars (replaceNl (collapseRuns t))
  let t2 := cutAtMarker t1
  trimChars (dedupGo (splitOnSpace t2) [])

/-- `cleanText` from the assisted (LLM-selector) extraction script, which
stops after whitespace collapsing, trimming and marker truncation (no
3-gram scan). -/
def cleanTextLLM (t : JStr) : JStr :=
  cutAtMarker (trimChars (replaceNl (collapseRuns t)))

/-- Worker for `splitWsRuns`: the flag records whether the previous
character belonged to the whitespace run currently acting as one
separator. -/
def splitWsAux : Bool → JStr → List JStr
  | _, [] => [[]]
  | afterSep, c :: rest =>
    if isSpaceJS c then
      if afterSep then splitWsAux true rest else [] :: splitWsAux true rest
    else
      match splitWsAux false rest with
      | w :: ws => (c :: w) :: ws
      | [] => [[c]]

/-- JavaScript `text.split(/\s+/)`: split at maximal whitespace runs, with
a leading/trailing empty fragment when the text starts/ends with
whitespace (used for the word-count checks). -/
def splitWsRuns (l : JStr) : List JStr := splitWsAux false l

/-! ## Rating inferrer (`extractRating`, app.py lines 390-441) -/

/-- The regex character class `[1-5]`. -/
def isRatingDigit (c : Char) : Bool := c ∈ ['1', '2', '3', '4', '5']

/-- The regex character class `\d` (ASCII digits, as in the texts at
hand). -/
def isDigitChar (c : Char) : Bool :=
  c ∈ ['0', '1', '2', '3', '4', '5', '6', '7', '8', '9']

/-- Numeric value of a digit character. -/
def digVal (c : Char) : Nat := c.toNat - '0'.toNat

/-- Numeric value of a digit character, as a rational. -/
def digQ (c : Char) : ℚ := (digVal c : ℚ)

/-- The star-glyph class `[★⭐✩✭]`. -/
def isStarGlyph (c : Char) : Bool := c = '★' || c = '⭐' || c = '✩' || c = '✭'

/-- The tail `\s*(?:star|\/\s*5|$)` of the first text pattern, checked
after the numeral: optional whitespace, then `star` (case-insensitive), a
slash followed by optional whitespace and `5`, or the end of the text. -/
def p1Tail (l : JStr) : Bool :=
  let l2 := l.dropWhile isSpaceJS
  startsWithCI "star".toList l2 ||
    (match l2 with
     | '/' :: r =>
       match r.dropWhile isSpaceJS with
       | '5' :: _ => true
       | _ => false
     | _ => false) ||
    l2.isEmpty

/-- One anchored attempt of `/([1-5]([.,]\d)?)\s*(?:star|\/\s*5|$)/i`: the
optional decimal group is tried greedily and, when the tail then fails,
dropped (regex backtracking). The captured value goes through
`replace(',', '.')` and `parseFloat`, so both separators give
`d + e / 10`. -/
def p1TryAt : JStr → Option ℚ
  | [] => none
  | c :: rest =>
    if isRatingDigit c then
      match rest with
      | s :: d :: rest2 =>
        if (s = '.' ∨ s = ',') ∧ isDigitChar d ∧ p1Tail rest2 then
          some (digQ c + digQ d / 10)
        else if p1Tail rest then some (digQ c) else none
      | _ => if p1Tail rest then some (digQ c) else none
    else none

/-- Leftmost match of the first text pattern. -/
def searchP1 : JStr → Option ℚ
  | [] => none
  | c :: rest =>
    match p1TryAt (c :: rest) with
    | some v => some v
    | none => searchP1 rest

/-- The numeral `[1-5]([.,]\d)?` with the traditional script's value
computation (`replace(',', '.')` before `parseFloat`): both separators
yield `d + e / 10`. -/
def num15 : JStr → Option ℚ
  | [] => none
  | c :: rest =>
    if isRatingDigit c then
      match rest with
      | s :: d :: _ =>
        if (s = '.' ∨ s = ',') ∧ isDigitChar d then some (digQ c + digQ d / 10)
        else some (digQ c)
      | _ => some (digQ c)
    else none

/-- One anchored attempt of `/Rated\s+([1-5]([.,]\d)?)/i`. -/
def p2TryAt (l : JStr) : Option ℚ :=
  if startsWithCI "rated".toList l then
    match l.drop 5 with
    | c :: rest => if isSpaceJS c then num15 (rest.dropWhile isSpaceJS) else none
    | [] => none
  else none

/-- Leftmost match of the second text pattern. -/
def searchP2 : JStr → Option ℚ
  | [] => none
  | c :: rest =>
    match p2TryAt (c :: rest) with
    | some v => some v
    | none => searchP2 rest

/-- One anchored attempt of `/Rating:\s*([1-5]([.,]\d)?)/i`. -/
def p3TryAt (l : JStr) : Option ℚ :=
  if startsWithCI "rating:".toList l then num15 ((l.drop 7).dropWhile isSpaceJS)
  else none

/-- Leftmost match of the third text pattern. -/
def searchP3 : JStr → Option ℚ
  | [] => none
  | c :: rest =>
    match p3TryAt (c :: rest) with
    | some v => some v
    | none => searchP3 rest

/-- Leftmost match of `/([★⭐✩✭]{1,5})/`: the first run of star glyphs,
capped at five. When the captured run contains a filled glyph (`★` or
`⭐`) its length is the candidate; otherwise `parseFloat` yields `NaN`,
the range test fails, and no candidate arises from this pattern (matching
the source, no later run is tried). -/
def searchP4 : JStr → Option ℚ
  | [] => none
  | c :: rest =>
    if isStarGlyph c then
      let run := ((c :: rest).takeWhile isStarGlyph).take 5
      if run.contains '★' || run.contains '⭐' then some (run.length : ℚ)
      else none
    else searchP4 rest

/-- One review element as the rating inferrer sees it: the number of
elements matching the filled-star selector union, the numeric values of
the `data-rating` / `data-score` / `data-stars` / `data-value` attributes
(`none` where the attribute is missing, empty, or fails the `isNaN`
test — the string-to-number coercion happens at the DOM collaborator
boundary), and the element's full visible text. -/
structure DomElement where
  filledStarCount : Nat
  dataAttrValues : List (Option ℚ)
  fullText : JStr

/-- The attribute / pattern loop shared shape: the first candidate value
lying within `[0, 5]` is returned; out-of-range candidates are passed
over, never clamped. -/
def firstInRange : List (Option ℚ) → Option ℚ
  | [] => none
  | none :: rest => firstInRange rest
  | some v :: rest => if 0 ≤ v ∧ v ≤ 5 then some v else firstInRange rest

/-- `extractRating` from the traditional extraction script: filled-star
count, then numeric data attributes, then the four text patterns, each
candidate gated by the `0 ≤ r ≤ 5` check; `none` when everything fails. -/
def extractRating (e : DomElement) : Option ℚ :=
  if 0 < e.filledStarCount ∧ 0 ≤ (e.filledStarCount : ℚ) ∧ (e.filledStarCount : ℚ) ≤ 5 then
    some (e.filledStarCount : ℚ)
  else
    match firstInRange e.dataAttrValues with
    | some v => some v
    | none =>
      firstInRange
        [searchP1 e.fullText, searchP2 e.fullText, searchP3 e.fullText, searchP4 e.fullText]

/-- The Python-side re-validation in `extract_reviews_traditional`
(lines 581-587): a numeric rating outside `[0, 5]` is coerced to absent,
never an error and never a dropped record. -/
def pythonRatingCleanup : Option ℚ → Option ℚ
  | none => none
  | some v => if 0 ≤ v ∧ v ≤ 5 then some v else none

/-! ## Assisted-strategy record construction (app.py lines 609-660) -/

/-- The numeral `[1-5]([.,]\d)?` with the assisted script's value
computation: plain `parseFloat` without comma replacement, so `d,e`
parses as just `d` while `d.e` parses as `d + e / 10`. -/
def num15llm : JStr → Option ℚ
  | [] => none
  | [c] => if isRatingDigit c then some (digQ c) else none
  | [c, _] => if isRatingDigit c then some (digQ c) else none
  | c :: s :: d :: _ =>
    if isRatingDigit c then
      if (s = '.' ∨ s = ',') ∧ isDigitChar d then
        some (if s = '.' then digQ c + digQ d / 10 else digQ c)
      else some (digQ c)
    else none

/-- Leftmost match of `/([1-5]([.,]\d)?)/` with `parseFloat` semantics. -/
def searchNum15 : JStr → Option ℚ
  | [] => none
  | c :: rest =>
    match num15llm (c :: rest) with
    | some v => some v
    | none => searchNum15 rest

/-- The assisted script's `extractRating`: for each rating selector in
turn, the found element's text (`none` when the selector matches nothing)
is searched for the numeral pattern; the first match is returned by
`parseFloat` with no range check at all. -/
def llmExtractRating : List (Option JStr) → Option ℚ
  | [] => none
  | none :: rest => llmExtractRating rest
  | some t :: rest =>
    match searchNum15 t with
    | some v => some v
    | none => llmExtractRating rest

/-- The assisted script's content loop: the first content selector whose
element has a non-empty cleaned text supplies the body (an element with
empty cleaned text, or no element at all, lets the loop continue; if none
succeeds no record is produced). -/
def llmFindContent : List (Option JStr) → Option JStr
  | [] => none
  | none :: rest => llmFindContent rest
  | some t :: rest =>
    let c := cleanTextLLM t
    if c.isEmpty then llmFindContent rest else some c

/-- A review record: title, body, optional rating, reviewer. -/
structure Review where
  title : JStr
  body : JStr
  rating : Option ℚ
  reviewer : JStr
deriving DecidableEq

/-- One container's worth of the assisted extraction (lines 636-656):
given, per content selector and per rating selector, the text of the
element found in the container (`none` when the selector matches
nothing), produce the candidate record — body from the first non-empty
cleaned content, kept only with at least three `\s+`-separated parts,
rating from the unchecked numeral search. -/
def llmContainerExtract (contentFound ratingFound : List (Option JStr)) : Option Review :=
  match llmFindContent contentFound with
  | none => none
  | some content =>
    if 3 ≤ (splitWsRuns content).length then
      some ⟨"Review".toList, content, llmExtractRating ratingFound, "Anonymous".toList⟩
    else none

/-! ## Dedup merge (`combine_extraction_methods`, app.py lines 592-670, and
the per-page merge of `scrape_reviews`, lines 702-717) -/

/-- The body-dedup accumulation loop of `combine_extraction_methods`: each
candidate whose body is already in `seen_content` is discarded, otherwise
its body joins the seen set and the record is appended. -/
def dedupAppend (seen : List JStr) (acc : List Review) (revs : List Review) :
    List Review × List JStr :=
  match revs with
  | [] => (acc, seen)
  | r :: rest =>
    if r.body ∈ seen then dedupAppend seen acc rest
    else dedupAppend (r.body :: seen) (acc ++ [r]) rest

/-- `combine_extraction_methods`: the traditional candidates are folded
into an empty seen set first, then the assisted candidates into the same
set (an assisted-extraction exception contributes the empty list). -/
def combine_extraction_methods (traditionalReviews llmReviews : List Review) :
    List Review :=
  let s1 := dedupAppend [] [] traditionalReviews
  (dedupAppend s1.2 s1.1 llmReviews).1

/-- The per-page merge in `scrape_reviews` (lines 705-707):
`existing_contents` is the set of collected bodies, `unique_reviews` keeps
the candidates with unseen bodies, and the batch is appended whole. -/
def mergeUnique (allReviews newReviews : List Review) : List Review :=
  let existingContents := allReviews.map (fun r => r.body)
  allReviews ++ newReviews.filter (fun r => r.body ∉ existingContents)

/-! ## Harvest loop (`scrape_reviews`, app.py lines 690-728)

The browser-facing effects of one page are the collaborators' inputs:
`extract` gives the result of `combine_extraction_methods` on the page
bearing a given page number, and `hasNext` the boolean outcome of
`handle_pagination` there. -/

/-- The `while len(all_reviews) < max_reviews and page_num <= 50` loop of
`scrape_reviews`, carrying the collected list and the
`successful_pages` counter: extract; stop when the page has no candidates
at all; merge the unique ones; stop when nothing new was added; below the
cap, paginate, stopping when no next page is reached. -/
def scrapeLoop (extract : Nat → List Review) (hasNext : Nat → Bool) (maxReviews : Nat)
    (pageNum : Nat) (allReviews : List Review) (successfulPages : Nat) :
    List Review × Nat :=
  if hg : allReviews.length < maxReviews ∧ pageNum ≤ 50 then
    let newReviews := extract pageNum
    if newReviews.isEmpty then (allReviews, successfulPages)
    else
      let merged := mergeUnique allReviews newReviews
      if allReviews.length < merged.length then
        if merged.length < maxReviews then
          if hasNext pageNum then
            scrapeLoop extract hasNext maxReviews (pageNum + 1) merged (successfulPages + 1)
          else (merged, successfulPages + 1)
        else (merged, successfulPages + 1)
      else (merged, successfulPages)
  else (allReviews, successfulPages)
termination_by 51 - pageNum
decreasing_by omega

/-- The result snapshot of one harvest session (the dictionary built at
app.py lines 734-740 and 746-752). -/
structure ScrapeResult where
  reviews : List Review
  reviews_count : Nat
  pages_with_unique_reviews : Nat
  url : String
  scrape_date : String
deriving DecidableEq

/-- `scrape_reviews` around its loop: a completed run yields the snapshot
of the collected reviews and page counter; any exception raised inside
the `try` block (after the page was created) yields the empty snapshot
with the same url and timestamp, never a propagated error. -/
def scrape_reviews (outcome : Except String (List Review × Nat)) (url scrapeDate : String) :
    ScrapeResult :=
  match outcome with
  | Except.ok (allReviews, successfulPages) =>
    ⟨allReviews, allReviews.length, successfulPages, url, scrapeDate⟩
  | Except.error _ => ⟨[], 0, 0, url, scrapeDate⟩

/-! ## Pagination controller (`handle_pagination`, app.py lines 257-359) -/

/-- The observable outcome of trying one next-page selector at the
browser boundary: the selector matched nothing visible, the interaction
raised (and was caught), the click left url and page content unchanged,
or url or content changed. -/
inductive ClickAttempt
  | noMatch
  | raised
  | unchanged
  | changed
deriving DecidableEq

/-- The selector loop of `handle_pagination` (lines 279-317): the first
attempt whose before/after comparison shows a change returns `True`;
missing or invisible elements, caught exceptions and unchanged pages all
fall through to the next selector. -/
def clickPhase : List ClickAttempt → Bool
  | [] => false
  | ClickAttempt.changed :: _ => true
  | ClickAttempt.noMatch :: rest => clickPhase rest
  | ClickAttempt.raised :: rest => clickPhase rest
  | ClickAttempt.unchanged :: rest => clickPhase rest

/-- Lookahead for `re.sub(r'page=\d+', ..)`: does the text begin with
`page=` followed by a digit? -/
def pageEqDigitAt : JStr → Bool
  | 'p' :: 'a' :: 'g' :: 'e' :: '=' :: d :: _ => isDigitChar d
  | _ => false

/-- State of the `page=\d+` substitution automaton: scanning normally,
swallowing the `k + 1` remaining fixed characters of a matched `page=`,
or swallowing the matched digit run. -/
inductive SubState
  | normal
  | fixed (k : Nat)
  | digits

/-- Worker for `pageParamSub`, one character per step. In normal mode a
`page=` + digit lookahead emits the replacement and swallows the match
(`fixed 3` = the four characters `age=` after the already-consumed `p`,
then the digit run); in digit mode a following non-digit re-enters normal
scanning, allowing the next non-overlapping match to start there. -/
def pageSubAux (repl : JStr) : SubState → JStr → JStr
  | _, [] => []
  | SubState.fixed 0, _ :: rest => pageSubAux repl SubState.digits rest
  | SubState.fixed (k + 1), _ :: rest => pageSubAux repl (SubState.fixed k) rest
  | SubState.digits, c :: rest =>
    if isDigitChar c then pageSubAux repl SubState.digits rest
    else if pageEqDigitAt (c :: rest) then repl ++ pageSubAux repl (SubState.fixed 3) rest
    else c :: pageSubAux repl SubState.normal rest
  | SubState.normal, c :: rest =>
    if pageEqDigitAt (c :: rest) then repl ++ pageSubAux repl (SubState.fixed 3) rest
    else c :: pageSubAux repl SubState.normal rest

/-- Python `re.sub(r'page=\d+', repl, url)`: every non-overlapping
leftmost occurrence of `page=` followed by a maximal digit run is
replaced by `repl`; a `page=` without digits is not a match. -/
def pageParamSub (repl : JStr) (url : JStr) : JStr :=
  pageSubAux repl SubState.normal url

/-- Characters allowed in a URL scheme after its leading letter, as in
`urllib.parse`. -/
def isSchemeChar (c : Char) : Bool := c.isAlphanum || c = '+' || c = '-' || c = '.'

/-- Worker splitting `scheme:rest` at the first colon, provided every
character before it is a scheme character. -/
def schemeSplitAux (acc : JStr) : JStr → Option (JStr × JStr)
  | [] => none
  | ':' :: rest => if acc.isEmpty then none else some (acc, rest)
  | c :: rest => if isSchemeChar c then schemeSplitAux (acc ++ [c]) rest else none

/-- Modelled from `urllib.parse.urlparse`: the scheme part of a URL (a
non-empty run of scheme characters starting with a letter, terminated by
the first colon) together with the remainder, or `none` when the URL has
no scheme. -/
def schemeSplit (l : JStr) : Option (JStr × JStr) :=
  match schemeSplitAux [] l with
  | some (s, rest) =>
    match s with
    | c :: _ => if c.isAlpha then some (s, rest) else none
    | [] => none
  | none => none

/-- Modelled from `urllib.parse.urlparse`: the network-location part of
the remainder after the scheme — present only after `//`, extending to
the first `/`, `?` or `#`. -/
def netlocOf : JStr → JStr
  | '/' :: '/' :: rest => rest.takeWhile (fun c => ¬(c = '/' ∨ c = '?' ∨ c = '#'))
  | _ => []

/-- The validation at lines 336-343: `urlparse(next_url)` must yield both
a scheme and a netloc. -/
def validateUrl (l : JStr) : Bool :=
  match schemeSplit l with
  | some (_, rest) => ¬(netlocOf rest).isEmpty
  | none => false

/-- The URL-rewrite fallback (lines 324-331): with `page=` somewhere in
the current URL, every `page=\d+` is replaced by `page=current+1`;
otherwise `page=current+1` is appended after `&` when a query string
exists (`?` present) and after `?` otherwise. -/
def buildNextUrl (currentUrl : JStr) (currentPage : Nat) : JStr :=
  if ("page=".toList).IsInfix currentUrl then
    pageParamSub ("page=".toList ++ Nat.toDigits 10 (currentPage + 1)) currentUrl
  else
    let separator := if '?' ∈ currentUrl then '&' else '?'
    currentUrl ++ separator :: "page=".toList ++ Nat.toDigits 10 (currentPage + 1)

/-- The page as `handle_pagination` observes it: the outcome of each
matching next-page selector in priority order, the current URL, and
whether navigating to the rewritten URL succeeds (raises nothing). -/
structure PageEnv where
  clicks : List ClickAttempt
  currentUrl : JStr
  gotoSucceeds : Bool

/-- `handle_pagination`: the click strategy first; failing that, the URL
rewrite — an invalid rewritten URL returns `False` before navigating, a
raising navigation is caught and falls through to the final `False`, and
a successful navigation returns `True`. The caller receives only this
boolean. -/
def handle_pagination (env : PageEnv) (currentPage : Nat) : Bool :=
  if clickPhase env.clicks then true
  else
    let nextUrl := buildNextUrl env.currentUrl currentPage
    if validateUrl nextUrl then env.gotoSucceeds else false

/-! ## Helper lemmas -/

/-- Rewriting helper for concrete digit values. -/
theorem digQ_eq (c : Char) (n : Nat) (h : digVal c = n) : digQ c = (n : ℚ) := by
  rw [digQ, h]

/-- A digit from the class `[1-5]` has value between 1 and 5. -/
theorem digQ_bounds15 (c : Char) (h : isRatingDigit c = true) :
    1 ≤ digQ c ∧ digQ c ≤ 5 := by
  have hm : c ∈ ['1', '2', '3', '4', '5'] := by simpa [isRatingDigit] using h
  have hv : 1 ≤ digVal c ∧ digVal c ≤ 5 := by fin_cases hm <;> exact (by decide)
  rw [digQ]
  constructor
  · exact_mod_cast hv.1
  · exact_mod_cast hv.2

/-- A digit from the class `\d` has value between 0 and 9. -/
theorem digQ_bounds09 (c : Char) (h : isDigitChar c = true) :
    0 ≤ digQ c ∧ digQ c ≤ 9 := by
  have hm : c ∈ ['0', '1', '2', '3', '4', '5', '6', '7', '8', '9'] := by
    simpa [isDigitChar] using h
  have hv : digVal c ≤ 9 := by fin_cases hm <;> exact (by decide)
  rw [digQ]
  constructor
  · positivity
  · exact_mod_cast hv

/-- Every value the guarded candidate loop returns lies within `[0, 5]`. -/
theorem firstInRange_bound : ∀ (l : List (Option ℚ)) (r : ℚ),
    firstInRange l = some r → 0 ≤ r ∧ r ≤ 5 := by
  intro l
  induction l with
  | nil => intro r h; simp [firstInRange] at h
  | cons o rest ih =>
    intro r h
    match o with
    | none => exact ih r (by simpa [firstInRange] using h)
    | some v =>
      rw [firstInRange] at h
      by_cases hv : 0 ≤ v ∧ v ≤ 5
      · rw [if_pos hv] at h
        cases h
        exact hv
      · rw [if_neg hv] at h
        exact ih r h

/-- The traditional `extractRating` yields only values within `[0, 5]`. -/
theorem extractRating_bound (e : DomElement) (r : ℚ)
    (h : extractRating e = some r) : 0 ≤ r ∧ r ≤ 5 := by
  rw [extractRating] at h
  by_cases hs : 0 < e.filledStarCount ∧ 0 ≤ (e.filledStarCount : ℚ) ∧
      (e.filledStarCount : ℚ) ≤ 5
  · rw [if_pos hs] at h
    cases h
    exact ⟨hs.2.1, hs.2.2⟩
  · rw [if_neg hs] at h
    cases ha : firstInRange e.dataAttrValues with
    | none =>
      rw [ha] at h
      exact firstInRange_bound _ r h
    | some v =>
      rw [ha] at h
      cases h
      exact firstInRange_bound _ _ ha

/-- The assisted numeral parse yields only values in `[1, 59/10]`: the
leading digit is from `[1-5]` and an optional `.e` adds at most `9/10`. -/
theorem num15llm_bound : ∀ (l : JStr) (r : ℚ),
    num15llm l = some r → 1 ≤ r ∧ r ≤ 59 / 10 := by
  intro l r h
  match l with
  | [] => simp [num15llm] at h
  | [c] =>
    rw [num15llm] at h
    split at h
    · rename_i hc
      have hcb := digQ_bounds15 c hc
      cases h
      exact ⟨hcb.1, by linarith [hcb.2]⟩
    · simp at h
  | [c, s] =>
    rw [num15llm] at h
    split at h
    · rename_i hc
      have hcb := digQ_bounds15 c hc
      cases h
      exact ⟨hcb.1, by linarith [hcb.2]⟩
    · simp at h
  | c :: s :: d :: tail =>
    rw [num15llm] at h
    split at h
    · rename_i hc
      have hcb := digQ_bounds15 c hc
      split at h
      · rename_i hsd
        have hdb := digQ_bounds09 d hsd.2
        cases h
        split
        · exact ⟨by linarith [hcb.1, hdb.1], by linarith [hcb.2, hdb.2]⟩
        · exact ⟨hcb.1, by linarith [hcb.2]⟩
      · cases h
        exact ⟨hcb.1, by linarith [hcb.2]⟩
    · simp at h

/-- Leftmost-match search preserves the numeral bound. -/
theorem searchNum15_bound : ∀ (l : JStr) (r : ℚ),
    searchNum15 l = some r → 1 ≤ r ∧ r ≤ 59 / 10 := by
  intro l
  induction l with
  | nil => intro r h; simp [searchNum15] at h
  | cons c rest ih =>
    intro r h
    rw [searchNum15] at h
    cases hm : num15llm (c :: rest) with
    | none =>
      rw [hm] at h
      exact ih r h
    | some v =>
      rw [hm] at h
      cases h
      exact num15llm_bound _ _ hm

/-- The assisted `extractRating` yields only values in `[1, 59/10]` —
never range-checked, so values above 5 can escape. -/
theorem llmExtractRating_bound : ∀ (ts : List (Option JStr)) (r : ℚ),
    llmExtractRating ts = some r → 1 ≤ r ∧ r ≤ 59 / 10 := by
  intro ts
  induction ts with
  | nil => intro r h; simp [llmExtractRating] at h
  | cons o rest ih =>
    intro r h
    match o with
    | none => exact ih r (by simpa [llmExtractRating] using h)
    | some t =>
      rw [llmExtractRating] at h
      cases hm : searchNum15 t with
      | none =>
        rw [hm] at h
        exact ih r h
      | some v =>
        rw [hm] at h
        cases h
        exact searchNum15_bound t _ hm

/-- The click loop succeeds exactly when some attempt changed the page. -/
theorem clickPhase_iff (cs : List ClickAttempt) :
    clickPhase cs = true ↔ ClickAttempt.changed ∈ cs := by
  induction cs with
  | nil => simp [clickPhase]
  | cons c rest ih =>
    cases c <;> simp [clickPhase, ih]

/-- The dedup fold keeps the collected bodies distinct and keeps the seen
set in sync with them. -/
theorem dedupAppend_nodup (revs : List Review) :
    ∀ (seen : List JStr) (acc : List Review),
      (acc.map (fun r => r.body)).Nodup →
      (∀ b, b ∈ acc.map (fun r => r.body) ↔ b ∈ seen) →
      ((dedupAppend seen acc revs).1.map (fun r => r.body)).Nodup ∧
        (∀ b, b ∈ (dedupAppend seen acc revs).1.map (fun r => r.body) ↔
          b ∈ (dedupAppend seen acc revs).2) := by
  induction revs with
  | nil => intro seen acc h1 h2; rw [dedupAppend]; exact ⟨h1, h2⟩
  | cons r rest ih =>
    intro seen acc h1 h2
    rw [dedupAppend]
    by_cases hr : r.body ∈ seen
    · rw [if_pos hr]; exact ih seen acc h1 h2
    · rw [if_neg hr]
      apply ih
      · rw [List.map_append, List.nodup_append]
        refine ⟨h1, by simp, ?_⟩
        intro b hb
        simp only [List.map_cons, List.map_nil, List.mem_singleton]
        intro hbr
        exact hr (hbr ▸ (h2 b).mp hb)
      · intro b
        simp only [List.map_append, List.mem_append, List.map_cons, List.map_nil,
          List.mem_singleton, List.mem_cons]
        rw [h2 b]
        tauto

/-- The bodies of a combined extraction batch are pairwise distinct. -/
theorem combine_nodup (traditionalReviews llmReviews : List Review) :
    ((combine_extraction_methods traditionalReviews llmReviews).map
      (fun r => r.body)).Nodup := by
  unfold combine_extraction_methods
  have h1 := dedupAppend_nodup traditionalReviews [] [] (by simp) (by simp)
  exact (dedupAppend_nodup llmReviews _ _ h1.1 h1.2).1

/-- Merging a batch of distinct-bodied candidates into a distinct-bodied
collection keeps the bodies distinct. -/
theorem mergeUnique_nodup (allReviews newReviews : List Review)
    (h1 : (allReviews.map (fun r => r.body)).Nodup)
    (h2 : (newReviews.map (fun r => r.body)).Nodup) :
    ((mergeUnique allReviews newReviews).map (fun r => r.body)).Nodup := by
  unfold mergeUnique
  rw [List.map_append, List.nodup_append]
  refine ⟨h1, h2.sublist ((List.filter_sublist _).map _), ?_⟩
  intro b hb hbf
  obtain ⟨r, hrf, hrb⟩ := List.mem_map.mp hbf
  have := (List.mem_filter.mp hrf).2
  simp only [decide_eq_true_eq] at this
  exact this (hrb ▸ hb)

/-- Merging the same batch a second time adds nothing: each of its bodies
is already among the merged collection's bodies. -/
theorem mergeUnique_idem (allReviews newReviews : List Review) :
    mergeUnique (mergeUnique allReviews newReviews) newReviews =
      mergeUnique allReviews newReviews := by
  conv_lhs => rw [mergeUnique]
  have hnil : newReviews.filter
      (fun r => r.body ∉ (mergeUnique allReviews newReviews).map (fun r => r.body)) = [] := by
    rw [List.filter_eq_nil_iff]
    intro r hr
    simp only [decide_eq_true_eq, not_not]
    unfold mergeUnique
    rw [List.map_append, List.mem_append]
    by_cases hm : r.body ∈ allReviews.map (fun x => x.body)
    · exact Or.inl hm
    · refine Or.inr (List.mem_map.mpr ⟨r, ?_, rfl⟩)
      exact List.mem_filter.mpr ⟨hr, by simpa using hm⟩
  rw [hnil, List.append_nil]

/-- A batch merged into a collection already containing every one of its
bodies leaves the collection unchanged. -/
theorem mergeUnique_absorbed (allReviews newReviews : List Review)
    (h : ∀ r ∈ newReviews, r.body ∈ allReviews.map (fun x => x.body)) :
    mergeUnique allReviews newReviews = allReviews := by
  unfold mergeUnique
  have hnil : newReviews.filter
      (fun r => r.body ∉ allReviews.map (fun x => x.body)) = [] := by
    rw [List.filter_eq_nil_iff]
    intro r hr
    simpa using h r hr
  simp only [hnil, List.append_nil]

/-- The loop returns its state untouched as soon as its guard fails. -/
theorem scrapeLoop_guard_false (e : Nat → List Review) (hn : Nat → Bool)
    (m pn succ : Nat) (allReviews : List Review)
    (h : ¬(allReviews.length < m ∧ pn ≤ 50)) :
    scrapeLoop e hn m pn allReviews succ = (allReviews, succ) := by
  rw [scrapeLoop, dif_neg h]

/-- A page contributing no new unique body ends the session with the
collection and counter unchanged, and without a pagination attempt. -/
theorem scrapeLoop_stagnant (e : Nat → List Review) (hn : Nat → Bool)
    (m pn succ : Nat) (allReviews : List Review)
    (h : ∀ r ∈ e pn, r.body ∈ allReviews.map (fun x => x.body)) :
    scrapeLoop e hn m pn allReviews succ = (allReviews, succ) := by
  rw [scrapeLoop]
  by_cases hg : allReviews.length < m ∧ pn ≤ 50
  · rw [dif_pos hg]
    by_cases hne : (e pn).isEmpty
    · simp only [hne, if_true]
    · simp only [hne, if_false, Bool.false_eq_true]
      rw [mergeUnique_absorbed allReviews (e pn) h]
      simp
  · rw [dif_neg hg]

/-- One growing, under-cap, successfully paginating iteration steps the
loop to the next page. -/
theorem scrapeLoop_continue (e : Nat → List Review) (hn : Nat → Bool)
    (m pn succ : Nat) (allReviews : List Review)
    (hg : allReviews.length < m ∧ pn ≤ 50) (hne : (e pn).isEmpty = false)
    (hgrow : allReviews.length < (mergeUnique allReviews (e pn)).length)
    (hcap : (mergeUnique allReviews (e pn)).length < m)
    (hnext : hn pn = true) :
    scrapeLoop e hn m pn allReviews succ =
      scrapeLoop e hn m (pn + 1) (mergeUnique allReviews (e pn)) (succ + 1) := by
  rw [scrapeLoop, dif_pos hg]
  simp only [hne, if_pos hgrow, if_pos hcap, hnext]
  simp

/-- One growing iteration that reaches the review cap returns the merged
collection with the counter bumped. -/
theorem scrapeLoop_capstop (e : Nat → List Review) (hn : Nat → Bool)
    (m pn succ : Nat) (allReviews : List Review)
    (hg : allReviews.length < m ∧ pn ≤ 50) (hne : (e pn).isEmpty = false)
    (hgrow : allReviews.length < (mergeUnique allReviews (e pn)).length)
    (hcap : ¬(mergeUnique allReviews (e pn)).length < m) :
    scrapeLoop e hn m pn allReviews succ =
      (mergeUnique allReviews (e pn), succ + 1) := by
  rw [scrapeLoop, dif_pos hg]
  simp only [hne, if_pos hgrow, if_neg hcap]
  simp

/-- A page with no candidates at all ends the session unchanged. -/
theorem scrapeLoop_empty (e : Nat → List Review) (hn : Nat → Bool)
    (m pn succ : Nat) (allReviews : List Review)
    (hg : allReviews.length < m ∧ pn ≤ 50) (hne : (e pn).isEmpty = true) :
    scrapeLoop e hn m pn allReviews succ = (allReviews, succ) := by
  rw [scrapeLoop, dif_pos hg]
  simp only [hne, if_true]

/-- One growing, under-cap iteration whose pagination attempt fails
returns the merged collection with the counter bumped. -/
theorem scrapeLoop_nonext (e : Nat → List Review) (hn : Nat → Bool)
    (m pn succ : Nat) (allReviews : List Review)
    (hg : allReviews.length < m ∧ pn ≤ 50) (hne : (e pn).isEmpty = false)
    (hgrow : allReviews.length < (mergeUnique allReviews (e pn)).length)
    (hcap : (mergeUnique allReviews (e pn)).length < m)
    (hnext : hn pn = false) :
    scrapeLoop e hn m pn allReviews succ =
      (mergeUnique allReviews (e pn), succ + 1) := by
  rw [scrapeLoop, dif_pos hg]
  simp only [hne, if_pos hgrow, if_pos hcap, hnext]
  simp

/-- One non-growing iteration returns the (unchanged) merged collection
with the counter untouched. -/
theorem scrapeLoop_nogrow (e : Nat → List Review) (hn : Nat → Bool)
    (m pn succ : Nat) (allReviews : List Review)
    (hg : allReviews.length < m ∧ pn ≤ 50) (hne : (e pn).isEmpty = false)
    (hgrow : ¬allReviews.length < (mergeUnique allReviews (e pn)).length) :
    scrapeLoop e hn m pn allReviews succ = (mergeUnique allReviews (e pn), succ) := by
  rw [scrapeLoop, dif_pos hg]
  simp only [hne, if_neg hgrow]
  simp

/-- Case analysis for one loop iteration, used by the inductive lemmas:
either the guard fails or the page is empty (state returned as is), or
the batch merges without growth (merge returned, counter kept), or it
grows and the loop stops (cap reached or no next page) or continues on
the next page. -/
theorem scrapeLoop_cases (e : Nat → List Review) (hn : Nat → Bool)
    (m pn succ : Nat) (allReviews : List Review) :
    scrapeLoop e hn m pn allReviews succ = (allReviews, succ) ∨
    (scrapeLoop e hn m pn allReviews succ = (mergeUnique allReviews (e pn), succ) ∧
      ¬allReviews.length < (mergeUnique allReviews (e pn)).length) ∨
    (allReviews.length < m ∧ pn ≤ 50 ∧
      allReviews.length < (mergeUnique allReviews (e pn)).length ∧
      (scrapeLoop e hn m pn allReviews succ = (mergeUnique allReviews (e pn), succ + 1) ∨
        ((mergeUnique allReviews (e pn)).length < m ∧
          scrapeLoop e hn m pn allReviews succ =
            scrapeLoop e hn m (pn + 1) (mergeUnique allReviews (e pn)) (succ + 1)))) := by
  by_cases hg : allReviews.length < m ∧ pn ≤ 50
  · by_cases hne : (e pn).isEmpty
    · exact Or.inl (scrapeLoop_empty e hn m pn succ allReviews hg hne)
    · rw [Bool.not_eq_true] at hne
      by_cases hgrow : allReviews.length < (mergeUnique allReviews (e pn)).length
      · refine Or.inr (Or.inr ⟨hg.1, hg.2, hgrow, ?_⟩)
        by_cases hcap : (mergeUnique allReviews (e pn)).length < m
        · by_cases hnext : hn pn
          · exact Or.inr ⟨hcap,
              scrapeLoop_continue e hn m pn succ allReviews hg hne hgrow hcap hnext⟩
          · rw [Bool.not_eq_true] at hnext
            exact Or.inl (scrapeLoop_nonext e hn m pn succ allReviews hg hne hgrow hcap hnext)
        · exact Or.inl (scrapeLoop_capstop e hn m pn succ allReviews hg hne hgrow hcap)
      · exact Or.inr (Or.inl ⟨scrapeLoop_nogrow e hn m pn succ allReviews hg hne hgrow, hgrow⟩)
  · exact Or.inl (scrapeLoop_guard_false e hn m pn succ allReviews hg)

/-- Loop invariant: when every extraction batch has pairwise-distinct
bodies, a collection with distinct bodies keeps them distinct through the
whole loop. -/
theorem scrapeLoop_nodup (e : Nat → List Review) (hn : Nat → Bool) (m : Nat)
    (he : ∀ p, ((e p).map (fun r => r.body)).Nodup) :
    ∀ (pn : Nat) (allReviews : List Review) (succ : Nat),
      (allReviews.map (fun r => r.body)).Nodup →
      ((scrapeLoop e hn m pn allReviews succ).1.map (fun r => r.body)).Nodup := by
  have main : ∀ (k pn : Nat), 51 - pn ≤ k → ∀ (allReviews : List Review) (succ : Nat),
      (allReviews.map (fun r => r.body)).Nodup →
      ((scrapeLoop e hn m pn allReviews succ).1.map (fun r => r.body)).Nodup := by
    intro k
    induction k with
    | zero =>
      intro pn hk all succ hall
      rw [scrapeLoop_guard_false e hn m pn succ all (by omega)]
      exact hall
    | succ k ih =>
      intro pn hk all succ hall
      have hm := mergeUnique_nodup all (e pn) hall (he pn)
      rcases scrapeLoop_cases e hn m pn succ all with h | ⟨h, _⟩ | ⟨_, h50, _, h | ⟨_, h⟩⟩
      · rw [h]; exact hall
      · rw [h]; exact hm
      · rw [h]; exact hm
      · rw [h]; exact ih (pn + 1) (by omega) _ _ hm
  intro pn all succ hall
  exact main (51 - pn) pn (Nat.le_refl _) all succ hall

/-- The `successful_pages` counter grows by at most one per processed
page, so the final counter is bounded by the pages remaining below 51. -/
theorem scrapeLoop_pages_le (e : Nat → List Review) (hn : Nat → Bool) (m : Nat) :
    ∀ (pn : Nat) (allReviews : List Review) (succ : Nat),
      (scrapeLoop e hn m pn allReviews succ).2 ≤ succ + (51 - pn) := by
  have main : ∀ (k pn : Nat), 51 - pn ≤ k → ∀ (allReviews : List Review) (succ : Nat),
      (scrapeLoop e hn m pn allReviews succ).2 ≤ succ + (51 - pn) := by
    intro k
    induction k with
    | zero =>
      intro pn hk all succ
      rw [scrapeLoop_guard_false e hn m pn succ all (by omega)]
      omega
    | succ k ih =>
      intro pn hk all succ
      rcases scrapeLoop_cases e hn m pn succ all with h | ⟨h, _⟩ | ⟨_, h50, _, h | ⟨_, h⟩⟩
      · rw [h]; omega
      · rw [h]; omega
      · rw [h]; simp only []; omega
      · rw [h]
        have := ih (pn + 1) (by omega) (mergeUnique all (e pn)) (succ + 1)
        omega
  intro pn all succ
  exact main (51 - pn) pn (Nat.le_refl _) all succ

/-- One merge appends at most one batch, so with batches of size at most
`batchBound` the collection never reaches `m + batchBound`. -/
theorem scrapeLoop_length_lt (e : Nat → List Review) (hn : Nat → Bool)
    (m batchBound : Nat) (hb : ∀ p, (e p).length ≤ batchBound) :
    ∀ (pn : Nat) (allReviews : List Review) (succ : Nat),
      allReviews.length < m →
      (scrapeLoop e hn m pn allReviews succ).1.length < m + batchBound := by
  have hmerge : ∀ (pn : Nat) (all : List Review),
      (mergeUnique all (e pn)).length ≤ all.length + batchBound := by
    intro pn all
    unfold mergeUnique
    simp only [List.length_append]
    have h1 := List.length_filter_le
      (fun r => decide (r.body ∉ all.map (fun x => x.body))) (e pn)
    have h2 := hb pn
    omega
  have main : ∀ (k pn : Nat), 51 - pn ≤ k → ∀ (allReviews : List Review) (succ : Nat),
      allReviews.length < m →
      (scrapeLoop e hn m pn allReviews succ).1.length < m + batchBound := by
    intro k
    induction k with
    | zero =>
      intro pn hk all succ hlt
      rw [scrapeLoop_guard_false e hn m pn succ all (by omega)]
      show all.length < m + batchBound
      omega
    | succ k ih =>
      intro pn hk all succ hlt
      have hme := hmerge pn all
      rcases scrapeLoop_cases e hn m pn succ all with h | ⟨h, _⟩ | ⟨_, h50, _, h | ⟨hcap, h⟩⟩
      · rw [h]; show all.length < m + batchBound; omega
      · rw [h]; show (mergeUnique all (e pn)).length < m + batchBound; omega
      · rw [h]; show (mergeUnique all (e pn)).length < m + batchBound; omega
      · rw [h]
        exact ih (pn + 1) (by omega) (mergeUnique all (e pn)) (succ + 1) hcap
  intro pn all succ hlt
  exact main (51 - pn) pn (Nat.le_refl _) all succ hlt

/-! ## Concrete scripts used by the claims -/

/-- A scripted session: page 1 yields two records, every later page
yields records with the same two bodies (different titles and
reviewers). -/
def stagnantScript : Nat → List Review := fun p =>
  if p = 1 then
    [⟨"T1".toList, "body one text".toList, none, "A".toList⟩,
     ⟨"T2".toList, "body two text".toList, none, "B".toList⟩]
  else
    [⟨"T1b".toList, "body one text".toList, none, "C".toList⟩,
     ⟨"T2b".toList, "body two text".toList, none, "D".toList⟩]

/-- A scripted session: every page yields fifty records with distinct
bodies. -/
def bigBatchScript : Nat → List Review := fun _ =>
  (List.range 50).map (fun i => ⟨"T".toList, 'b' :: Nat.toDigits 10 i, none, "A".toList⟩)

/-! ## Claims -/

/-- C1: at every point of a harvest session the collected reviews have
pairwise-distinct (normalized) bodies — the collection is always in
bijection with the seen-body set — a candidate whose body was already
produced in the same extraction call, by the other strategy, or on a
prior page is discarded, and merging the same extraction output a second
time adds zero records. -/
theorem C1_dedup_invariant :
    (∀ (traditionalReviews llmReviews : List Review),
      ((combine_extraction_methods traditionalReviews llmReviews).map
        (fun r => r.body)).Nodup)
  ∧ (∀ (allReviews newReviews : List Review),
      (allReviews.map (fun r => r.body)).Nodup →
      (newReviews.map (fun r => r.body)).Nodup →
      ((mergeUnique allReviews newReviews).map (fun r => r.body)).Nodup ∧
        mergeUnique (mergeUnique allReviews newReviews) newReviews =
          mergeUnique allReviews newReviews)
  ∧ (∀ (trad llm : Nat → List Review) (hasNext : Nat → Bool) (maxReviews : Nat),
      ((scrapeLoop (fun p => combine_extraction_methods (trad p) (llm p)) hasNext
          maxReviews 1 [] 0).1.map (fun r => r.body)).Nodup) := by
  refine ⟨combine_nodup, ?_, ?_⟩
  · intro allReviews newReviews h1 h2
    exact ⟨mergeUnique_nodup allReviews newReviews h1 h2,
      mergeUnique_idem allReviews newReviews⟩
  · intro trad llm hasNext maxReviews
    exact scrapeLoop_nodup _ hasNext maxReviews
      (fun p => combine_nodup (trad p) (llm p)) 1 [] 0 (by simp)

/-- Witness for C1 at a concrete collection and batch. -/
theorem C1_dedup_invariant_witness :
    ((mergeUnique
        [⟨"T".toList, "good stuff here".toList, none, "A".toList⟩]
        [⟨"T".toList, "good stuff here".toList, none, "B".toList⟩,
         ⟨"T".toList, "other body text".toList, none, "C".toList⟩]).map
      (fun r => r.body)).Nodup ∧
    mergeUnique
        (mergeUnique
          [⟨"T".toList, "good stuff here".toList, none, "A".toList⟩]
          [⟨"T".toList, "good stuff here".toList, none, "B".toList⟩,
           ⟨"T".toList, "other body text".toList, none, "C".toList⟩])
        [⟨"T".toList, "good stuff here".toList, none, "B".toList⟩,
         ⟨"T".toList, "other body text".toList, none, "C".toList⟩] =
      mergeUnique
        [⟨"T".toList, "good stuff here".toList, none, "A".toList⟩]
        [⟨"T".toList, "good stuff here".toList, none, "B".toList⟩,
         ⟨"T".toList, "other body text".toList, none, "C".toList⟩] :=
  C1_dedup_invariant.2.1
    [⟨"T".toList, "good stuff here".toList, none, "A".toList⟩]
    [⟨"T".toList, "good stuff here".toList, none, "B".toList⟩,
     ⟨"T".toList, "other body text".toList, none, "C".toList⟩]
    (by decide) (by decide)

/-- C2 (amended): ratings produced by the traditional (static) strategy —
both by the in-page `extractRating` and after the Python-side
re-validation — are absent or within `[0, 5]`, and out-of-range text like
`rated 7` yields absent; the assisted strategy's rating, however, is the
unchecked `parseFloat` of a `[1-5]([.,]\d)?` match, absent or within
`[1, 59/10]`, and can exceed 5. -/
theorem C2_rating_bounds :
    (∀ e : DomElement,
      match extractRating e with
      | none => True
      | some r => 0 ≤ r ∧ r ≤ 5)
  ∧ (∀ o : Option ℚ,
      match pythonRatingCleanup o with
      | none => True
      | some r => 0 ≤ r ∧ r ≤ 5)
  ∧ extractRating ⟨0, [], "rated 7".toList⟩ = none
  ∧ (∀ ts : List (Option JStr),
      match llmExtractRating ts with
      | none => True
      | some r => 1 ≤ r ∧ r ≤ 59 / 10) := by
  refine ⟨?_, ?_, by decide, ?_⟩
  · intro e
    cases hr : extractRating e with
    | none => trivial
    | some r => exact extractRating_bound e r hr
  · intro o
    match o with
    | none => trivial
    | some v =>
      by_cases hv : 0 ≤ v ∧ v ≤ 5
      · simp only [pythonRatingCleanup, if_pos hv]
        exact hv
      · simp [pythonRatingCleanup, if_neg hv]
  · intro ts
    cases hr : llmExtractRating ts with
    | none => trivial
    | some r => exact llmExtractRating_bound ts r hr

/-- Counterexample to C2 as stated: a rating element whose text is `5.9`
gives the assisted strategy a produced record carrying rating `59/10`,
which lies outside `[0, 5]`; the record survives the dedup merge
unchanged, and is neither discarded nor coerced to absent. -/
theorem C2_counterexample :
    llmContainerExtract [some "great product really nice".toList] [some "5.9".toList]
      = some ⟨"Review".toList, "great product really nice".toList,
          some ((59 : ℚ) / 10), "Anonymous".toList⟩
    ∧ combine_extraction_methods []
        [⟨"Review".toList, "great product really nice".toList,
          some ((59 : ℚ) / 10), "Anonymous".toList⟩]
      = [⟨"Review".toList, "great product really nice".toList,
          some ((59 : ℚ) / 10), "Anonymous".toList⟩]
    ∧ ¬((59 : ℚ) / 10 ≤ 5) := by
  refine ⟨?_, ?_, by norm_num⟩
  · show some (⟨"Review".toList, "great product really nice".toList,
      some (digQ '5' + digQ '9' / 10), "Anonymous".toList⟩ : Review) = _
    rw [digQ_eq '5' 5 (by decide), digQ_eq '9' 9 (by decide)]
    norm_num
  · rfl

/-- C3 counterexample: the 3-gram skip deletes the word between `read`
and `more`, manufacturing a truncation marker that only the second pass
cuts — so the normalizer is not idempotent. -/
theorem C3_counterexample :
    cleanText (cleanText "a X more b read X more b".toList) ≠
      cleanText "a X more b read X more b".toList := by decide

/-- C3 (amended): the normalizer is idempotent on every input whose first
pass yields a fixed point of each stage — text already
whitespace-collapsed and trimmed, containing no truncation marker, and
left unchanged by the 3-gram duplicate scan. The counterexample shows the
unconditional claim fails when the scan manufactures a new marker. -/
theorem C3_conditional_fixpoint :
    ∀ s : JStr,
      trimChars (replaceNl (collapseRuns (cleanText s))) = cleanText s →
      cutAtMarker (cleanText s) = cleanText s →
      trimChars (dedupGo (splitOnSpace (cleanText s)) []) = cleanText s →
      cleanText (cleanText s) = cleanText s := by
  intro s h1 h2 h3
  show trimChars (dedupGo (splitOnSpace (cutAtMarker
    (trimChars (replaceNl (collapseRuns (cleanText s)))))) []) = cleanText s
  rw [h1, h2, h3]

/-- Witness for C3 at a marker-free, duplicate-free input. -/
theorem C3_conditional_fixpoint_witness :
    cleanText (cleanText "Great product fast shipping".toList) =
      cleanText "Great product fast shipping".toList :=
  C3_conditional_fixpoint "Great product fast shipping".toList
    (by decide) (by decide) (by decide)

/-- C4: an iteration whose every extracted body is already collected
terminates the session at once — same collection, same page counter, no
pagination attempt; in particular the scripted session whose page 2
repeats page 1's bodies stops after page 2 with
`pages_with_unique_reviews = 1`. -/
theorem C4_stagnation :
    (∀ (extract : Nat → List Review) (hasNext : Nat → Bool)
        (maxReviews pageNum succ : Nat) (allReviews : List Review),
      (∀ r ∈ extract pageNum, r.body ∈ allReviews.map (fun x => x.body)) →
      scrapeLoop extract hasNext maxReviews pageNum allReviews succ = (allReviews, succ))
  ∧ scrapeLoop stagnantScript (fun _ => true) 500 1 [] 0 = (stagnantScript 1, 1) := by
  constructor
  · intro extract hasNext maxReviews pageNum succ allReviews h
    exact scrapeLoop_stagnant extract hasNext maxReviews pageNum succ allReviews h
  · rw [scrapeLoop_continue stagnantScript (fun _ => true) 500 1 0 []
      (by decide) (by decide) (by decide) (by decide) rfl]
    rw [scrapeLoop_stagnant stagnantScript (fun _ => true) 500 2 1
      (mergeUnique [] (stagnantScript 1)) (by decide)]
    decide

/-- Witness for C4: page 2 of the scripted session repeats the collected
bodies, so the loop entered there returns at once. -/
theorem C4_stagnation_witness :
    scrapeLoop stagnantScript (fun _ => true) 500 2 (stagnantScript 1) 1 =
      (stagnantScript 1, 1) :=
  C4_stagnation.1 stagnantScript (fun _ => true) 500 2 1 (stagnantScript 1) (by decide)

/-- C5: with no click selector producing a change, the controller
rewrites the URL — an existing `page=` parameter's number becomes
`current+1` (`page=1` to `page=2`, reported as navigated), and without
one, `page=current+1` is appended after `?` (no query string) or `&`
(query string present) — and navigation happens only on a URL that
validates with a scheme and a host. -/
theorem C5_url_fallback :
    (buildNextUrl "https://shop.com/items?page=1".toList 1 =
        "https://shop.com/items?page=2".toList
      ∧ handle_pagination
          ⟨[ClickAttempt.noMatch, ClickAttempt.unchanged],
            "https://shop.com/items?page=1".toList, true⟩ 1 = true)
  ∧ (∀ (url : JStr) (n : Nat), ¬("page=".toList <:+: url) →
      buildNextUrl url n =
        url ++ (if '?' ∈ url then '&' else '?') :: "page=".toList ++
          Nat.toDigits 10 (n + 1))
  ∧ buildNextUrl "https://shop.com/items".toList 1 =
      "https://shop.com/items?page=2".toList
  ∧ buildNextUrl "https://shop.com/items?sort=top".toList 1 =
      "https://shop.com/items?sort=top&page=2".toList
  ∧ (∀ (env : PageEnv) (n : Nat), clickPhase env.clicks = false →
      handle_pagination env n = true →
      validateUrl (buildNextUrl env.currentUrl n) = true) := by
  refine ⟨⟨by decide, by decide⟩, ?_, by decide, by decide, ?_⟩
  · intro url n h
    rw [buildNextUrl, if_neg h]
  · intro env n hc htrue
    rw [handle_pagination] at htrue
    simp only [hc, Bool.false_eq_true, if_false] at htrue
    by_cases hv : validateUrl (buildNextUrl env.currentUrl n)
    · exact hv
    · rw [Bool.not_eq_true] at hv
      simp only [hv, Bool.false_eq_true, if_false] at htrue

/-- Witness for C5: a click-free environment that navigated did so to a
validated URL. -/
theorem C5_url_fallback_witness :
    validateUrl (buildNextUrl "https://shop.com/items?page=1".toList 1) = true :=
  C5_url_fallback.2.2.2.2 ⟨[], "https://shop.com/items?page=1".toList, true⟩ 1
    (by decide) (by decide)

/-- C6 (amended): one pagination attempt returns a plain boolean, true
exactly when a click attempt changed the page or the rewritten URL
validated and navigation succeeded; `NotFound` and `Error` situations are
both collapsed to `false` and are not distinguishable by the session. -/
theorem C6_boolean_outcome :
    ∀ (env : PageEnv) (n : Nat),
      handle_pagination env n = true ↔
        (ClickAttempt.changed ∈ env.clicks ∨
          (validateUrl (buildNextUrl env.currentUrl n) = true ∧
            env.gotoSucceeds = true)) := by
  intro env n
  rw [handle_pagination, ← clickPhase_iff]
  by_cases hc : clickPhase env.clicks
  · simp [hc]
  · rw [Bool.not_eq_true] at hc
    simp only [hc, Bool.false_eq_true, if_false]
    by_cases hv : validateUrl (buildNextUrl env.currentUrl n)
    · simp [hv]
    · rw [Bool.not_eq_true] at hv
      simp [hv]

/-- Counterexample to C6 as stated: the controller's result is a boolean,
and an environment with no working mechanism (no matching selector, an
unvalidatable rewrite) and an environment whose interactions raised (a
raising click, a failing navigation) both come back as the same `false`. -/
theorem C6_counterexample :
    handle_pagination ⟨[ClickAttempt.noMatch], "not a url".toList, true⟩ 1 = false
    ∧ handle_pagination
        ⟨[ClickAttempt.raised], "https://shop.com/items".toList, false⟩ 1 = false :=
  ⟨by decide, by decide⟩

/-- C7: whatever the loop's outcome — success or an exception raised
after the page was created — the session returns a structurally complete
snapshot carrying the request URL and timestamp, and the failure path
returns the zero-review snapshot rather than propagating the error. -/
theorem C7_failure_snapshot :
    ∀ (outcome : Except String (List Review × Nat)) (url scrapeDate : String),
      (scrape_reviews outcome url scrapeDate).url = url ∧
      (scrape_reviews outcome url scrapeDate).scrape_date = scrapeDate ∧
      (∀ msg : String,
        scrape_reviews (Except.error msg) url scrapeDate =
          ⟨[], 0, 0, url, scrapeDate⟩) := by
  intro outcome url scrapeDate
  refine ⟨?_, ?_, fun msg => rfl⟩ <;>
    (cases outcome with
     | error e => rfl
     | ok p => obtain ⟨a, s⟩ := p; rfl)

/-- C8: the loop body runs only while the page number is at most 50 and
the collection is below the cap; started at page 1, the page counter in
the snapshot never exceeds 50, and the loop is a total function. -/
theorem C8_page_bound :
    (∀ (extract : Nat → List Review) (hasNext : Nat → Bool)
        (maxReviews pageNum succ : Nat) (allReviews : List Review),
      ¬(allReviews.length < maxReviews ∧ pageNum ≤ 50) →
      scrapeLoop extract hasNext maxReviews pageNum allReviews succ =
        (allReviews, succ))
  ∧ (∀ (extract : Nat → List Review) (hasNext : Nat → Bool) (maxReviews : Nat),
      (scrapeLoop extract hasNext maxReviews 1 [] 0).2 ≤ 50) := by
  constructor
  · intro extract hasNext maxReviews pageNum succ allReviews h
    exact scrapeLoop_guard_false extract hasNext maxReviews pageNum succ allReviews h
  · intro extract hasNext maxReviews
    have := scrapeLoop_pages_le extract hasNext maxReviews 1 [] 0
    omega

/-- Witness for C8: entered at page 51 the loop returns immediately. -/
theorem C8_page_bound_witness :
    scrapeLoop (fun _ => []) (fun _ => true) 500 51 [] 0 = ([], 0) :=
  C8_page_bound.1 (fun _ => []) (fun _ => true) 500 51 0 [] (by decide)

/-- C9: the cap only gates starting another page — one merge appends its
whole batch, so a page yielding fifty unique records against
`maxReviews = 10` ends with fifty collected; in general, from below the
cap the final size stays below `maxReviews` plus one batch bound. -/
theorem C9_cap_overshoot :
    ((scrapeLoop bigBatchScript (fun _ => true) 10 1 [] 0).1.length = 50 ∧ 10 < 50)
  ∧ (∀ (extract : Nat → List Review) (hasNext : Nat → Bool)
        (maxReviews batchBound pageNum succ : Nat) (allReviews : List Review),
      (∀ p, (extract p).length ≤ batchBound) →
      allReviews.length < maxReviews →
      (scrapeLoop extract hasNext maxReviews pageNum allReviews succ).1.length <
        maxReviews + batchBound) := by
  constructor
  · constructor
    · rw [scrapeLoop_capstop bigBatchScript (fun _ => true) 10 1 0 []
        (by decide) (by decide) (by decide) (by decide)]
      decide
    · decide
  · intro extract hasNext maxReviews batchBound pageNum succ allReviews hb hlt
    exact scrapeLoop_length_lt extract hasNext maxReviews batchBound hb
      pageNum allReviews succ hlt

/-- Witness for C9's general bound at a concrete session. -/
theorem C9_cap_overshoot_witness :
    (scrapeLoop (fun _ => []) (fun _ => true) 1 1 [] 0).1.length < 1 + 0 :=
  C9_cap_overshoot.2 (fun _ => []) (fun _ => true) 1 0 1 0 []
    (fun _ => Nat.le_refl 0) (by decide)

/-- C10: in every snapshot the session returns — success and failure path
alike — the reported `reviews_count` equals the length of the returned
review sequence. -/
theorem C10_count_matches :
    ∀ (outcome : Except String (List Review × Nat)) (url scrapeDate : String),
      (scrape_reviews outcome url scrapeDate).reviews_count =
        (scrape_reviews outcome url scrapeDate).reviews.length := by
  intro outcome url scrapeDate
  cases outcome with
  | error e => rfl
  | ok p => obtain ⟨a, s⟩ := p; rfl

end Gomarble
